import Mathlib

/-!
# Event board controller (src/src/App.jsx, src/src/App-simple.jsx)

Shallow embedding of the React component `App`: the hooks of the component are
the fields of `State`, every handler is a function from the state at the moment
the handler runs (plus the answers of the environment: clock, confirmation
dialog, HTTP outcome) to the state after its continuation has finished, paired
with the list of HTTP requests it issued.  A handler is one atomic step: the
interleaving of two pending continuations is outside this model.

Events are typed records.  A JavaScript array element that is not an object
(for instance `null`) makes the render loop `events.map(event => event.id)`
throw, so such lists never reach a handler.  Ids are integers that JavaScript
holds exactly and prints in decimal (magnitude below 2^53); beyond that range
the printed path segment of a PUT or DELETE URL differs from `toString`.

The search texts are JavaScript strings, sequences of UTF-16 code units, since
`encodeURIComponent` throws on an unpaired surrogate.  The other texts are only
compared with the empty string, stored and sent, so they are Lean strings.
-/

namespace EventBoard

/-- UTF-16 code unit. -/
abbrev CodeUnit := Fin 65536

/-- JavaScript string: a sequence of UTF-16 code units, surrogates paired or
not. -/
abbrev JSString := List CodeUnit

/-- Event of the remote collection: `{ id, name, date }`. -/
structure Event where
  id : Int
  name : String
  date : String
  deriving DecidableEq, Repr

/-- Value of `newEvent`: `{ name, date }`. -/
structure NewEvent where
  name : String
  date : String
  deriving DecidableEq, Repr

/-- Value of `applicationData`: `{ studentName, email, phone }`. -/
structure ApplicationData where
  studentName : String
  email : String
  phone : String
  deriving DecidableEq, Repr

/-- JavaScript value of `response.data`.  Arrays carry events; numbers are
integers. -/
inductive Body where
  | undefined
  | null
  | bool (b : Bool)
  | num (n : Int)
  | str (s : String)
  | arr (xs : List Event)
  | obj (fields : List (String × Body))

/-- Outcome of `axios.get`: a 2xx response with its body, or a rejection. -/
inductive GetResult where
  | ok (body : Body)
  | fail

/-- The part of `err.response` the handlers read.  Field `data` is `none` when
`err.response.data` is null or undefined, and otherwise the text of
`err.response.data.error`, empty when that field is absent or falsy. -/
structure ErrResponse where
  data : Option String
  statusText : String
  deriving DecidableEq, Repr

/-- Outcome of `axios.post`, `axios.put`, `axios.delete`: success, or a
rejection with `err.response` when the server answered. -/
inductive CallResult where
  | ok
  | fail (response : Option ErrResponse)
  deriving DecidableEq, Repr

/-- HTTP request issued by a handler. -/
inductive Request where
  | get (url : String)
  | postEvent (url : String) (body : Event)
  | put (url : String) (name : String) (date : String)
  | delete (url : String)
  | postApplication (url : String) (eventId : Option Int) (studentName : String)
      (email : String) (phone : String)
  deriving DecidableEq, Repr

/-- The `useState` hooks of `App` (App.jsx lines 8-22). -/
structure State where
  events : List Event
  loading : Bool
  error : String
  showAddForm : Bool
  editingEvent : Option Event
  newEvent : NewEvent
  searchName : JSString
  searchDate : JSString
  showApplyForm : Bool
  applyingEventId : Option Int
  applicationData : ApplicationData
  deriving DecidableEq, Repr

/-- Initial values of the hooks. -/
def initialState : State :=
  { events := [], loading := true, error := "", showAddForm := false,
    editingEvent := none, newEvent := ⟨"", ""⟩, searchName := [], searchDate := [],
    showApplyForm := false, applyingEventId := none,
    applicationData := ⟨"", "", ""⟩ }

/-- Constant `API_URL = import.meta.env.VITE_API_URL || 'http://localhost:5000'`. -/
def API_URL (viteApiUrl : Option String) : String :=
  match viteApiUrl with
  | some u => if u ≠ "" then u else "http://localhost:5000"
  | none => "http://localhost:5000"

/-! ## encodeURIComponent -/

/-- Code units `encodeURIComponent` leaves as they are, by their number:
`A-Z a-z 0-9 - _ . ! ~ * ' ( )`. -/
def uriUnreserved (u : Nat) : Bool :=
  (65 ≤ u && u ≤ 90) || (97 ≤ u && u ≤ 122) || (48 ≤ u && u ≤ 57) ||
    u == 45 || u == 95 || u == 46 || u == 33 || u == 126 || u == 42 || u == 39 ||
    u == 40 || u == 41

/-- Upper-case hexadecimal digit. -/
def hexDigit (n : Nat) : Char :=
  if n < 10 then Char.ofNat (48 + n) else Char.ofNat (55 + n)

/-- UTF-8 bytes of a code point. -/
def utf8Bytes (c : Nat) : List Nat :=
  if c < 0x80 then [c]
  else if c < 0x800 then [0xC0 + c / 64, 0x80 + c % 64]
  else if c < 0x10000 then [0xE0 + c / 4096, 0x80 + c / 64 % 64, 0x80 + c % 64]
  else [0xF0 + c / 262144, 0x80 + c / 4096 % 64, 0x80 + c / 64 % 64, 0x80 + c % 64]

/-- One byte as `%XX`. -/
def pctByte (b : Nat) : List Char :=
  ['%', hexDigit (b / 16), hexDigit (b % 16)]

/-- The escape of one code point: its UTF-8 bytes, each as `%XX`. -/
def pctCodePoint (cp : Nat) : List Char :=
  (utf8Bytes cp).flatMap pctByte

/-- Leading surrogate, 0xD800 to 0xDBFF. -/
def isLeadSurrogate (u : CodeUnit) : Bool :=
  0xD800 ≤ u.val && u.val < 0xDC00

/-- Trailing surrogate, 0xDC00 to 0xDFFF. -/
def isTrailSurrogate (u : CodeUnit) : Bool :=
  0xDC00 ≤ u.val && u.val < 0xE000

/-- The loop of the built-in over the code units: an unreserved unit is copied,
a surrogate pair or any other unit is escaped as one code point, and an
unpaired surrogate is the URIError (`none`). -/
def encodeUnits : List CodeUnit → Option (List Char)
  | [] => some []
  | u :: rest =>
    if uriUnreserved u.val then
      (encodeUnits rest).map (fun out => Char.ofNat u.val :: out)
    else if isLeadSurrogate u then
      match rest with
      | [] => none
      | v :: rest2 =>
        if isTrailSurrogate v then
          (encodeUnits rest2).map (fun out =>
            pctCodePoint (0x10000 + (u.val - 0xD800) * 0x400 + (v.val - 0xDC00)) ++ out)
        else none
    else if isTrailSurrogate u then none
    else (encodeUnits rest).map (fun out => pctCodePoint u.val ++ out)

/-- JavaScript `encodeURIComponent`; `none` is the URIError it throws on a
string with an unpaired surrogate. -/
def encodeURIComponent (s : JSString) : Option String :=
  (encodeUnits s).map String.mk

/-- JavaScript `isWellFormed`: the string has no unpaired surrogate. -/
def isWellFormed : JSString → Bool
  | [] => true
  | u :: rest =>
    if isLeadSurrogate u then
      match rest with
      | [] => false
      | v :: rest2 => isTrailSurrogate v && isWellFormed rest2
    else !isTrailSurrogate u && isWellFormed rest

/-- UTF-16 code units of a character. -/
def utf16 (c : Char) : List CodeUnit :=
  if c.toNat < 0x10000 then [Fin.ofNat c.toNat]
  else [Fin.ofNat (0xD800 + (c.toNat - 0x10000) / 0x400),
        Fin.ofNat (0xDC00 + (c.toNat - 0x10000) % 0x400)]

/-- The JavaScript string of a text. -/
def toJS (s : String) : JSString :=
  s.data.flatMap utf16

/-! ## fetchEvents -/

/-- The array `params` built by `fetchEvents` (App.jsx lines 33-36); `none` when
`encodeURIComponent` throws. -/
def fetchParams (nameQuery dateQuery : JSString) : Option (List String) :=
  match (if nameQuery ≠ [] then
      (encodeURIComponent nameQuery).map (fun e => ["name=" ++ e]) else some []) with
  | none => none
  | some p1 =>
    match (if dateQuery ≠ [] then
        (encodeURIComponent dateQuery).map (fun e => ["date=" ++ e]) else some []) with
    | none => none
    | some p2 => some (p1 ++ p2)

/-- The `url` requested by `fetchEvents` (App.jsx lines 32-40); `none` when
building it throws. -/
def fetchUrl (api : String) (nameQuery dateQuery : JSString) : Option String :=
  let url := api ++ "/events"
  match fetchParams nameQuery dateQuery with
  | none => none
  | some params =>
    some (if params.length > 0 then url ++ "?" ++ "&".intercalate params else url)

/-- Property read `v.key` for a key that is no built-in property (`data`,
`events`): `none` is the TypeError thrown on `null` and `undefined`. -/
def Body.getProp (v : Body) (key : String) : Option Body :=
  match v with
  | .undefined => none
  | .null => none
  | .obj fields => some ((fields.lookup key).getD .undefined)
  | _ => some .undefined

/-- JavaScript truthiness. -/
def Body.truthy (v : Body) : Bool :=
  match v with
  | .undefined => false
  | .null => false
  | .bool b => b
  | .num n => n != 0
  | .str s => s != ""
  | .arr _ => true
  | .obj _ => true

/-- The value handed to `setEvents` by the branches of App.jsx lines 47-53;
`none` when evaluating the conditions throws. -/
def pickEvents (data : Body) : Option (List Event) :=
  match data with
  | .arr xs => some xs
  | _ =>
    match data.getProp "data" with
    | none => none
    | some d =>
      if d.truthy then
        match d.getProp "events" with
        | none => none
        | some (.arr xs) => some xs
        | some _ => some []
      else some []

/-- Message set by the `catch` of `fetchEvents`. -/
def connectError : String :=
  "Cannot connect to server. Make sure backend is running on port 5000."

/-- Function `fetchEvents(nameQuery, dateQuery)` (App.jsx lines 29-61).  A throw
while the URL is built reaches the `catch` before `axios.get` is called. -/
def fetchEvents (api : String) (s : State) (nameQuery dateQuery : JSString)
    (r : GetResult) : State × List Request :=
  let s1 := { s with loading := true }
  match fetchUrl api nameQuery dateQuery with
  | none => ({ s1 with error := connectError, loading := false }, [])
  | some url =>
    let s2 :=
      match r with
      | .ok data =>
        match pickEvents data with
        | some xs => { s1 with events := xs, error := "" }
        | none => { s1 with error := connectError }
      | .fail => { s1 with error := connectError }
    ({ s2 with loading := false }, [.get url])

/-! ## Mutating handlers -/

/-- Handler `handleAddEvent` (App.jsx lines 63-85); `now` is `Date.now()`. -/
def handleAddEvent (api : String) (s : State) (now : Int) (r : CallResult) :
    State × List Request :=
  if s.newEvent.name = "" ∨ s.newEvent.date = "" then
    ({ s with error := "Please fill in both name and date" }, [])
  else
    let eventToAdd : Event := { id := now, name := s.newEvent.name, date := s.newEvent.date }
    let req := Request.postEvent (api ++ "/events") eventToAdd
    match r with
    | .ok =>
      ({ s with events := s.events ++ [eventToAdd], newEvent := ⟨"", ""⟩,
                showAddForm := false, error := "" }, [req])
    | .fail _ => ({ s with error := "Failed to add event" }, [req])

/-- Text of `err.response.data.error || err.response.statusText`; `none` is the
TypeError of reading `.error` on a null or undefined `data`. -/
def errDetail (e : ErrResponse) : Option String :=
  match e.data with
  | none => none
  | some error => some (if error ≠ "" then error else e.statusText)

/-- Handler `handleEditEvent` (App.jsx lines 87-112).  With `editingEvent` null the
read `editingEvent.name` throws before anything is set or sent; a throw inside
the `catch` leaves the state as it was when the request failed. -/
def handleEditEvent (api : String) (s : State) (r : CallResult) : State × List Request :=
  match s.editingEvent with
  | none => (s, [])
  | some editingEvent =>
    if editingEvent.name = "" ∨ editingEvent.date = "" then
      ({ s with error := "Please fill in both name and date" }, [])
    else
      let req := Request.put (api ++ "/events/" ++ toString editingEvent.id)
        editingEvent.name editingEvent.date
      match r with
      | .ok =>
        ({ s with
            events := s.events.map (fun event =>
              if event.id = editingEvent.id then editingEvent else event),
            editingEvent := none, error := "" }, [req])
      | .fail (some resp) =>
        match errDetail resp with
        | some detail => ({ s with error := "Failed to update event: " ++ detail }, [req])
        | none => (s, [req])
      | .fail none => ({ s with error := "Failed to update event" }, [req])

/-- Handler `handleDeleteEvent(eventId)` (App.jsx lines 114-132); `confirmed` is the
answer of `window.confirm`; a throw inside the `catch` leaves the state as it
was when the request failed. -/
def handleDeleteEvent (api : String) (s : State) (eventId : Int) (confirmed : Bool)
    (r : CallResult) : State × List Request :=
  if !confirmed then (s, [])
  else
    let req := Request.delete (api ++ "/events/" ++ toString eventId)
    match r with
    | .ok =>
      ({ s with events := s.events.filter (fun event => event.id != eventId), error := "" },
        [req])
    | .fail (some resp) =>
      match errDetail resp with
      | some detail => ({ s with error := "Failed to delete event: " ++ detail }, [req])
      | none => (s, [req])
    | .fail none => ({ s with error := "Failed to delete event" }, [req])

/-- Function `startEditing(event)` (App.jsx lines 134-137). -/
def startEditing (s : State) (event : Event) : State :=
  { s with editingEvent := some event, showAddForm := false }

/-- Function `cancelEditing()` (App.jsx lines 139-141). -/
def cancelEditing (s : State) : State :=
  { s with editingEvent := none }

/-- Handler `handleSearch()` (App.jsx lines 143-154). -/
def handleSearch (api : String) (s : State) (r : GetResult) : State × List Request :=
  if s.searchName ≠ [] ∨ s.searchDate ≠ [] then
    fetchEvents api s s.searchName s.searchDate r
  else
    fetchEvents api s [] [] r

/-- Handler `handleNameChange` (App.jsx lines 156-160). -/
def handleNameChange (api : String) (s : State) (value : JSString) (r : GetResult) :
    State × List Request :=
  fetchEvents api { s with searchName := value } value s.searchDate r

/-- Handler `handleDateChange` (App.jsx lines 162-166). -/
def handleDateChange (api : String) (s : State) (value : JSString) (r : GetResult) :
    State × List Request :=
  fetchEvents api { s with searchDate := value } s.searchName value r

/-- Function `clearSearch()` (App.jsx lines 168-172). -/
def clearSearch (api : String) (s : State) (r : GetResult) : State × List Request :=
  fetchEvents api { s with searchName := [], searchDate := [] } [] [] r

/-- Function `startApplying(eventId)` (App.jsx lines 174-179). -/
def startApplying (s : State) (eventId : Int) : State :=
  { s with applyingEventId := some eventId, showApplyForm := true,
           showAddForm := false, editingEvent := none }

/-- Function `cancelApplying()` (App.jsx lines 181-185). -/
def cancelApplying (s : State) : State :=
  { s with showApplyForm := false, applyingEventId := none,
           applicationData := ⟨"", "", ""⟩ }

/-- Handler `handleApply` (App.jsx lines 187-208). -/
def handleApply (api : String) (s : State) (r : CallResult) : State × List Request :=
  if s.applicationData.studentName = "" ∨ s.applicationData.email = "" ∨
      s.applicationData.phone = "" then
    ({ s with error := "Please fill in all application fields" }, [])
  else
    let req := Request.postApplication (api ++ "/applications") s.applyingEventId
      s.applicationData.studentName s.applicationData.email s.applicationData.phone
    match r with
    | .ok => ({ cancelApplying s with error := "" }, [req])
    | .fail _ => ({ s with error := "Failed to submit application" }, [req])

/-- The `onClick` of the Add Event / Cancel button (App.jsx line 236):
`setShowAddForm(!showAddForm)`. -/
def toggleAddForm (s : State) : State :=
  { s with showAddForm := !s.showAddForm }

/-- The `onChange` handlers of the three forms (App.jsx lines 246, 251, 264,
269, 283, 289, 295). -/
inductive Field where
  | newName | newDate | editName | editDate | studentName | email | phone
  deriving DecidableEq, Repr

/-- Effect of typing `value` into `field`.  The edit inputs are rendered only
while `editingEvent` is set. -/
def changeField (s : State) (field : Field) (value : String) : State :=
  match field with
  | .newName => { s with newEvent := { s.newEvent with name := value } }
  | .newDate => { s with newEvent := { s.newEvent with date := value } }
  | .editName =>
    { s with editingEvent := s.editingEvent.map (fun ev => { ev with name := value }) }
  | .editDate =>
    { s with editingEvent := s.editingEvent.map (fun ev => { ev with date := value }) }
  | .studentName =>
    { s with applicationData := { s.applicationData with studentName := value } }
  | .email => { s with applicationData := { s.applicationData with email := value } }
  | .phone => { s with applicationData := { s.applicationData with phone := value } }

/-! ## The component as a transition system -/

/-- User actions, each with the answers the environment gives while the handler
runs. -/
inductive Action where
  | mount (r : GetResult)
  | toggleAdd
  | type (field : Field) (value : String)
  | submitAdd (now : Int) (r : CallResult)
  | startEditing (event : Event)
  | cancelEditing
  | submitEdit (r : CallResult)
  | delete (eventId : Int) (confirmed : Bool) (r : CallResult)
  | startApplying (eventId : Int)
  | cancelApplying
  | submitApply (r : CallResult)
  | search (r : GetResult)
  | nameChange (value : JSString) (r : GetResult)
  | dateChange (value : JSString) (r : GetResult)
  | clearSearch (r : GetResult)

/-- State after one action. -/
def step (api : String) (s : State) (a : Action) : State :=
  match a with
  | .mount r => (fetchEvents api s [] [] r).1
  | .toggleAdd => toggleAddForm s
  | .type field value => changeField s field value
  | .submitAdd now r => (handleAddEvent api s now r).1
  | .startEditing event => startEditing s event
  | .cancelEditing => cancelEditing s
  | .submitEdit r => (handleEditEvent api s r).1
  | .delete eventId confirmed r => (handleDeleteEvent api s eventId confirmed r).1
  | .startApplying eventId => startApplying s eventId
  | .cancelApplying => cancelApplying s
  | .submitApply r => (handleApply api s r).1
  | .search r => (handleSearch api s r).1
  | .nameChange value r => (handleNameChange api s value r).1
  | .dateChange value r => (handleDateChange api s value r).1
  | .clearSearch r => (clearSearch api s r).1

/-- State after a sequence of actions. -/
def run (api : String) (s : State) (actions : List Action) : State :=
  actions.foldl (step api) s

/-- Number of forms the render shows (App.jsx lines 240, 257, 276). -/
def visibleForms (s : State) : Nat :=
  (if s.showAddForm then 1 else 0) + (if s.editingEvent.isSome then 1 else 0) +
    (if s.showApplyForm then 1 else 0)

/-- An event with non-empty name and date. -/
def Event.filled (e : Event) : Prop :=
  e.name ≠ "" ∧ e.date ≠ ""

/-- A fetch outcome that hands `setEvents` only events with non-empty name and
date (a rejected or throwing fetch hands it nothing). -/
def GetResult.filled (r : GetResult) : Prop :=
  match r with
  | .ok data => ∀ xs, pickEvents data = some xs → ∀ e ∈ xs, e.filled
  | .fail => True

/-- An action whose fetch, if it performs one, is `GetResult.filled`. -/
def Action.fetchesFilled (a : Action) : Prop :=
  match a with
  | .mount r => r.filled
  | .search r => r.filled
  | .nameChange _ r => r.filled
  | .dateChange _ r => r.filled
  | .clearSearch r => r.filled
  | _ => True

/-- Name of a query parameter `key=value`: the text before its first `=`. -/
def paramKey (param : String) : String :=
  ⟨param.data.takeWhile (fun c => c != '=')⟩

end EventBoard

/-! ## The earlier variant, App-simple.jsx -/

namespace AppSimple

open EventBoard (Event NewEvent CallResult Request)

/-- The `useState` hooks of App-simple.jsx (lines 6-10). -/
structure State where
  events : List Event
  loading : Bool
  error : String
  showAddForm : Bool
  newEvent : NewEvent
  deriving DecidableEq, Repr

/-- Handler `handleAddEvent` of App-simple.jsx (lines 30-52); `now` is `Date.now()`. -/
def handleAddEvent (s : State) (now : Int) (r : CallResult) : State × List Request :=
  if s.newEvent.name = "" ∨ s.newEvent.date = "" then
    ({ s with error := "Please fill in both name and date" }, [])
  else
    let eventToAdd : Event := { id := now, name := s.newEvent.name, date := s.newEvent.date }
    let req := Request.postEvent "http://localhost:5000/events" eventToAdd
    match r with
    | .ok =>
      ({ s with events := s.events ++ [eventToAdd], newEvent := ⟨"", ""⟩,
                showAddForm := false, error := "" }, [req])
    | .fail _ => ({ s with error := "Failed to add event" }, [req])

end AppSimple

/-! ## Create -/

namespace EventBoard

/-- C1: for every view state and every add-form draft with non-empty name and
non-empty date, when `POST /events` succeeds, `handleAddEvent` (in App.jsx and
in App-simple.jsx) sends the record `{id: now, name: draft.name, date: draft.date}`,
leaves `events` equal to the previous list with exactly that record appended at
the end, and sets `showAddForm` to false. -/
theorem handleAddEvent_success (api : String) (s : State) (t : AppSimple.State)
    (draft : NewEvent) (now : Int) (hname : draft.name ≠ "") (hdate : draft.date ≠ "") :
    ((handleAddEvent api { s with newEvent := draft } now .ok).1.events
        = s.events ++ [⟨now, draft.name, draft.date⟩]
      ∧ (handleAddEvent api { s with newEvent := draft } now .ok).1.events.length
        = s.events.length + 1
      ∧ (handleAddEvent api { s with newEvent := draft } now .ok).1.showAddForm = false
      ∧ (handleAddEvent api { s with newEvent := draft } now .ok).2
        = [.postEvent (api ++ "/events") ⟨now, draft.name, draft.date⟩])
    ∧ ((AppSimple.handleAddEvent { t with newEvent := draft } now .ok).1.events
        = t.events ++ [⟨now, draft.name, draft.date⟩]
      ∧ (AppSimple.handleAddEvent { t with newEvent := draft } now .ok).1.events.length
        = t.events.length + 1
      ∧ (AppSimple.handleAddEvent { t with newEvent := draft } now .ok).1.showAddForm = false
      ∧ (AppSimple.handleAddEvent { t with newEvent := draft } now .ok).2
        = [.postEvent "http://localhost:5000/events" ⟨now, draft.name, draft.date⟩]) := by
  simp [handleAddEvent, AppSimple.handleAddEvent, hname, hdate]

/-- Instance of C1: the draft Fair / 2024-06-01 added to a board that already
shows one event. -/
theorem handleAddEvent_success_witness :
    (NewEvent.mk "Fair" "2024-06-01").name ≠ "" ∧ (NewEvent.mk "Fair" "2024-06-01").date ≠ "" ∧
    (handleAddEvent "http://localhost:5000"
        { initialState with events := [⟨1, "Hack Day", "2024-05-01"⟩], showAddForm := true,
                            newEvent := ⟨"Fair", "2024-06-01"⟩ } 1717200000000 .ok).1.events
      = [⟨1, "Hack Day", "2024-05-01"⟩, ⟨1717200000000, "Fair", "2024-06-01"⟩] :=
  ⟨by decide, by decide,
    (handleAddEvent_success "http://localhost:5000"
      { initialState with events := [⟨1, "Hack Day", "2024-05-01"⟩], showAddForm := true }
      ⟨[], false, "", true, ⟨"", ""⟩⟩ ⟨"Fair", "2024-06-01"⟩ 1717200000000
      (by decide) (by decide)).1.1⟩

/-- C4: for every view state and every add-form draft whose name is empty or
whose date is empty, `handleAddEvent` (in App.jsx and in App-simple.jsx) issues
no request and changes nothing but the error message. -/
theorem handleAddEvent_invalid (api : String) (s : State) (t : AppSimple.State)
    (draft : NewEvent) (now : Int) (r : CallResult)
    (h : draft.name = "" ∨ draft.date = "") :
    (handleAddEvent api { s with newEvent := draft } now r
        = ({ s with newEvent := draft, error := "Please fill in both name and date" }, [])
      ∧ (handleAddEvent api { s with newEvent := draft } now r).1.events = s.events)
    ∧ (AppSimple.handleAddEvent { t with newEvent := draft } now r
        = ({ t with newEvent := draft, error := "Please fill in both name and date" }, [])
      ∧ (AppSimple.handleAddEvent { t with newEvent := draft } now r).1.events = t.events) := by
  simp [handleAddEvent, AppSimple.handleAddEvent, h]

/-- Instance of C4: a draft with a name and no date. -/
theorem handleAddEvent_invalid_witness :
    ((NewEvent.mk "Fair" "").name = "" ∨ (NewEvent.mk "Fair" "").date = "") ∧
    (handleAddEvent "http://localhost:5000"
        { initialState with newEvent := ⟨"Fair", ""⟩ } 1717200000000 .ok).2 = [] :=
  ⟨by decide,
    by
      have h := (handleAddEvent_invalid "http://localhost:5000" initialState
        ⟨[], false, "", true, ⟨"", ""⟩⟩ ⟨"Fair", ""⟩ 1717200000000 .ok (by decide)).1.1
      rw [h]⟩

/-! ## Update -/

/-- C2: for every events list and every edit draft with non-empty name and
date whose id occurs in the list, when `PUT /events/{id}` succeeds,
`handleEditEvent` yields a list of the same length in which every position
holding the draft's id now holds the draft and every other position holds the
element it held before; the draft is in the list. -/
theorem handleEditEvent_success (api : String) (s : State) (draft : Event)
    (hname : draft.name ≠ "") (hdate : draft.date ≠ "")
    (hmem : ∃ e ∈ s.events, e.id = draft.id) :
    (handleEditEvent api { s with editingEvent := some draft } .ok).1.events.length
        = s.events.length
      ∧ (∀ (i : Nat) (e : Event), s.events[i]? = some e →
          (handleEditEvent api { s with editingEvent := some draft } .ok).1.events[i]?
            = some (if e.id = draft.id then draft else e))
      ∧ draft ∈ (handleEditEvent api { s with editingEvent := some draft } .ok).1.events
      ∧ (handleEditEvent api { s with editingEvent := some draft } .ok).2
        = [.put (api ++ "/events/" ++ toString draft.id) draft.name draft.date] := by
  obtain ⟨e0, he0, hid⟩ := hmem
  have hres : handleEditEvent api { s with editingEvent := some draft } .ok
      = ({ s with
            events := s.events.map (fun event => if event.id = draft.id then draft else event),
            editingEvent := none, error := "" },
         [.put (api ++ "/events/" ++ toString draft.id) draft.name draft.date]) := by
    simp [handleEditEvent, hname, hdate]
  rw [hres]
  refine ⟨by simp, ?_, ?_, rfl⟩
  · intro i e hi
    simp [List.getElem?_map, hi]
  · exact List.mem_map.mpr ⟨e0, he0, by simp [hid]⟩

/-- Instance of C2: renaming the second of three events. -/
theorem handleEditEvent_success_witness :
    (Event.mk 2 "Fair" "2024-06-02").name ≠ "" ∧ (Event.mk 2 "Fair" "2024-06-02").date ≠ "" ∧
    (handleEditEvent "http://localhost:5000"
        { initialState with
            events := [⟨1, "Hack Day", "2024-05-01"⟩, ⟨2, "Fare", "2024-06-01"⟩,
                       ⟨3, "Gala", "2024-07-01"⟩],
            editingEvent := some ⟨2, "Fair", "2024-06-02"⟩ } .ok).1.events.length = 3 :=
  ⟨by decide, by decide,
    (handleEditEvent_success "http://localhost:5000"
      { initialState with
          events := [⟨1, "Hack Day", "2024-05-01"⟩, ⟨2, "Fare", "2024-06-01"⟩,
                     ⟨3, "Gala", "2024-07-01"⟩] }
      ⟨2, "Fair", "2024-06-02"⟩ (by decide) (by decide)
      ⟨⟨2, "Fare", "2024-06-01"⟩, List.mem_cons_of_mem _ (List.mem_cons_self _ _), rfl⟩).1⟩

end EventBoard

/-! ## Delete -/

namespace EventBoard

/-- With pairwise distinct ids, dropping the elements whose id is `eventId`
erases exactly the one element that carries it. -/
theorem filter_id_eq_erase (events : List Event) (eventId : Int) (e : Event)
    (he : e ∈ events) (hid : e.id = eventId) (hnd : (events.map (fun x => x.id)).Nodup) :
    events.filter (fun event => event.id != eventId) = events.erase e := by
  induction events with
  | nil => simp at he
  | cons x xs ih =>
    rw [List.map_cons, List.nodup_cons] at hnd
    obtain ⟨hx, hxs⟩ := hnd
    by_cases hxe : x = e
    · subst hxe
      have hnone : ∀ y ∈ xs, (y.id != eventId) = true := by
        intro y hy
        have : y.id ≠ x.id := fun h => hx (h ▸ List.mem_map_of_mem (fun x => x.id) hy)
        simpa [hid] using this
      simp [List.filter_cons, hid, List.filter_eq_self.mpr hnone]
    · have hexs : e ∈ xs := by
        rcases List.mem_cons.mp he with h | h
        · exact absurd h.symm hxe
        · exact h
      have hxid : x.id ≠ eventId := by
        intro h
        exact hx (by rw [h, ← hid]; exact List.mem_map_of_mem (fun x => x.id) hexs)
      rw [List.erase_cons_tail (by simpa using hxe)]
      simp [List.filter_cons, hxid, ih hexs hxs]

/-- C3: for every events list and every `eventId`, when the user confirms and
`DELETE /events/{id}` succeeds, `handleDeleteEvent` leaves `events` equal to the
previous list without the elements whose id is `eventId` (exactly one element
when ids are distinct), the others kept in their order, and no remaining
element has that id.  Scenario: after Fetch returns one event with id 1, a
successful Create with a generated id `now` other than 1 and a confirmed
Delete(1), `events` holds the created event alone. -/
theorem handleDeleteEvent_success (api : String) (s : State) (eventId : Int) (now : Int)
    (hnow : now ≠ 1) :
    (handleDeleteEvent api s eventId true .ok).1.events
        = s.events.filter (fun event => event.id != eventId)
      ∧ List.Sublist (handleDeleteEvent api s eventId true .ok).1.events s.events
      ∧ (∀ e ∈ (handleDeleteEvent api s eventId true .ok).1.events, e.id ≠ eventId)
      ∧ (∀ e ∈ s.events, e.id ≠ eventId →
          e ∈ (handleDeleteEvent api s eventId true .ok).1.events)
      ∧ (∀ e ∈ s.events, e.id = eventId → (s.events.map (fun x => x.id)).Nodup →
          (handleDeleteEvent api s eventId true .ok).1.events = s.events.erase e)
      ∧ (handleDeleteEvent api s eventId true .ok).2
        = [.delete (api ++ "/events/" ++ toString eventId)]
      ∧ (run api initialState
          [.mount (.ok (.arr [⟨1, "Hack Day", "2024-05-01"⟩])), .toggleAdd,
           .type .newName "Fair", .type .newDate "2024-06-01", .submitAdd now .ok,
           .delete 1 true .ok]).events = [⟨now, "Fair", "2024-06-01"⟩] := by
  have hres : (handleDeleteEvent api s eventId true .ok).1.events
      = s.events.filter (fun event => event.id != eventId) := by
    simp [handleDeleteEvent]
  rw [hres]
  refine ⟨rfl, List.filter_sublist _, ?_, ?_, ?_, ?_, ?_⟩
  · intro e he
    simpa using (List.mem_filter.mp he).2
  · intro e he hne
    exact List.mem_filter.mpr ⟨he, by simpa using hne⟩
  · intro e he hid hnd
    exact filter_id_eq_erase s.events eventId e he hid hnd
  · simp [handleDeleteEvent]
  · simp [run, step, fetchEvents, fetchUrl, fetchParams, pickEvents, toggleAddForm, changeField, handleAddEvent,
      handleDeleteEvent, initialState, hnow]

/-- Instance of C3: the scenario with the timestamp 1717200000000. -/
theorem handleDeleteEvent_success_witness :
    (1717200000000 : Int) ≠ 1 ∧
    (run "http://localhost:5000" initialState
      [.mount (.ok (.arr [⟨1, "Hack Day", "2024-05-01"⟩])), .toggleAdd,
       .type .newName "Fair", .type .newDate "2024-06-01", .submitAdd 1717200000000 .ok,
       .delete 1 true .ok]).events = [⟨1717200000000, "Fair", "2024-06-01"⟩] :=
  ⟨by decide,
    (handleDeleteEvent_success "http://localhost:5000" initialState 1 1717200000000
      (by decide)).2.2.2.2.2.2⟩

/-- C10: for every view state and every `eventId`, when the user declines the
confirmation, `handleDeleteEvent` issues no request and returns the state it
was given, whatever the server would have answered. -/
theorem handleDeleteEvent_declined (api : String) (s : State) (eventId : Int)
    (r : CallResult) :
    handleDeleteEvent api s eventId false r = (s, []) := by
  simp [handleDeleteEvent]

end EventBoard

/-! ## Fetch: the shape of the response body -/

namespace EventBoard

/-- A body that is a sequence is taken as it is. -/
theorem pickEvents_arr (xs : List Event) : pickEvents (.arr xs) = some xs := rfl

/-- An envelope `{data: {events: [...]}}` yields its `data.events`. -/
theorem pickEvents_envelope (fields inner : List (String × Body)) (xs : List Event)
    (hdata : fields.lookup "data" = some (.obj inner))
    (hevents : inner.lookup "events" = some (.arr xs)) :
    pickEvents (.obj fields) = some xs := by
  simp [pickEvents, Body.getProp, hdata, hevents, Body.truthy]

/-- Every body other than `null` and `undefined` that is neither a sequence nor
an envelope with a sequence under `data.events` yields the empty sequence. -/
theorem pickEvents_other (data : Body) (hnull : data ≠ .null) (hundef : data ≠ .undefined)
    (harr : ∀ xs, data ≠ .arr xs)
    (henv : ∀ d xs, data.getProp "data" = some d → d.getProp "events" ≠ some (.arr xs)) :
    pickEvents data = some [] := by
  cases data with
  | undefined => exact absurd rfl hundef
  | null => exact absurd rfl hnull
  | bool b => simp [pickEvents, Body.getProp, Body.truthy]
  | num n => simp [pickEvents, Body.getProp, Body.truthy]
  | str s => simp [pickEvents, Body.getProp, Body.truthy]
  | arr xs => exact absurd rfl (harr xs)
  | obj fields =>
    have hget : (Body.obj fields).getProp "data"
        = some ((fields.lookup "data").getD .undefined) := rfl
    have h := fun xs => henv _ xs hget
    generalize (fields.lookup "data").getD .undefined = d at h hget
    unfold pickEvents
    simp only [hget]
    split_ifs with ht
    · cases hd : d.getProp "events" with
      | none => cases d <;> simp [Body.getProp, Body.truthy] at hd ht
      | some v =>
        cases v with
        | arr xs => exact absurd hd (h xs)
        | _ => rfl
    · rfl

/-- C5 at the body `null`: the read `response.data.data` throws, the `catch`
reports a connection failure and `events` keeps its previous content instead of
becoming empty. -/
theorem fetchEvents_null_body (api : String) (s : State) (nameQuery dateQuery : JSString) :
    (fetchEvents api s nameQuery dateQuery (.ok .null)).1
        = { s with loading := false, error := connectError }
      ∧ (fetchEvents api { initialState with events := [⟨1, "Hack Day", "2024-05-01"⟩] }
          [] [] (.ok .null)).1.events = [⟨1, "Hack Day", "2024-05-01"⟩]
      ∧ (fetchEvents api { initialState with events := [⟨1, "Hack Day", "2024-05-01"⟩] }
          [] [] (.ok .null)).1.events ≠ [] := by
  refine ⟨?_, ?_, ?_⟩
  · unfold fetchEvents
    cases fetchUrl api nameQuery dateQuery <;> simp [pickEvents, Body.getProp]
  · simp [fetchEvents, fetchUrl, fetchParams, pickEvents, Body.getProp, initialState]
  · simp [fetchEvents, fetchUrl, fetchParams, pickEvents, Body.getProp, initialState]

/-! ## Fetch: the requested URL -/

/-- No hexadecimal digit is a URL separator. -/
theorem hexDigit_safe (k : Nat) (h : k < 16) :
    hexDigit k ≠ '&' ∧ hexDigit k ≠ '=' ∧ hexDigit k ≠ '?' ∧ hexDigit k ≠ '#' := by
  interval_cases k <;> decide

/-- UTF-8 bytes are bytes. -/
theorem utf8Bytes_lt (n : Nat) (h : n < 0x110000) : ∀ b ∈ utf8Bytes n, b < 256 := by
  intro b hb
  unfold utf8Bytes at hb
  split_ifs at hb <;> simp at hb <;> omega

/-- The escape of a code point holds none of `&`, `=`, `?`, `#`. -/
theorem pctCodePoint_safe (cp : Nat) (h : cp < 0x110000) (c : Char)
    (hc : c ∈ pctCodePoint cp) : c ≠ '&' ∧ c ≠ '=' ∧ c ≠ '?' ∧ c ≠ '#' := by
  obtain ⟨b, hb, hcb⟩ := List.mem_flatMap.mp hc
  have hlt := utf8Bytes_lt cp h b hb
  simp only [pctByte, List.mem_cons, List.mem_singleton, List.not_mem_nil, or_false] at hcb
  rcases hcb with h1 | h1 | h1
  · subst h1; decide
  · subst h1; exact hexDigit_safe _ (by omega)
  · subst h1; exact hexDigit_safe _ (by omega)

/-- An unreserved code unit is ASCII. -/
theorem uriUnreserved_lt (u : Nat) (h : uriUnreserved u = true) : u < 127 := by
  simp only [uriUnreserved, Bool.or_eq_true, Bool.and_eq_true, decide_eq_true_eq,
    beq_iff_eq] at h
  omega

/-- An unreserved code unit is no surrogate. -/
theorem uriUnreserved_not_surrogate (u : CodeUnit) (h : uriUnreserved u.val = true) :
    isLeadSurrogate u = false ∧ isTrailSurrogate u = false := by
  have hlt := uriUnreserved_lt u.val h
  constructor
  · simp only [isLeadSurrogate, Bool.and_eq_false_iff, decide_eq_false_iff_not]
    omega
  · simp only [isTrailSurrogate, Bool.and_eq_false_iff, decide_eq_false_iff_not]
    omega

/-- An unreserved code unit is none of `&`, `=`, `?`, `#`. -/
theorem uriUnreserved_safe (u : Nat) (h : uriUnreserved u = true) :
    Char.ofNat u ≠ '&' ∧ Char.ofNat u ≠ '=' ∧ Char.ofNat u ≠ '?' ∧ Char.ofNat u ≠ '#' := by
  have hlt := uriUnreserved_lt u h
  interval_cases u <;> first | decide | (exfalso; revert h; decide)

/-- The built-in throws exactly on the strings that are not well formed. -/
theorem encodeUnits_isSome (q : JSString) : (encodeUnits q).isSome = isWellFormed q := by
  induction q using encodeUnits.induct with
  | case1 => rfl
  | case2 u rest hu ih =>
    obtain ⟨h1, h2⟩ := uriUnreserved_not_surrogate u hu
    rw [encodeUnits.eq_def, isWellFormed.eq_def]
    simp [hu, h1, h2, ← ih]
  | case3 u hu hl =>
    rw [encodeUnits.eq_def, isWellFormed.eq_def]
    simp [hu, hl]
  | case4 u hu hl v rest hv ih =>
    rw [encodeUnits.eq_def, isWellFormed.eq_def]
    simp [hu, hl, hv, ← ih]
  | case5 u hu hl v rest hv =>
    rw [encodeUnits.eq_def, isWellFormed.eq_def]
    simp [hu, hl, hv]
  | case6 u rest hu hl ht =>
    rw [encodeUnits.eq_def, isWellFormed.eq_def]
    simp [hu, hl, ht]
  | case7 u rest hu hl ht ih =>
    rw [encodeUnits.eq_def, isWellFormed.eq_def]
    simp [hu, hl, ht, ← ih]

/-- An encoded value holds none of `&`, `=`, `?`, `#`. -/
theorem encodeUnits_safe (q : JSString) :
    ∀ out, encodeUnits q = some out →
      ∀ c ∈ out, c ≠ '&' ∧ c ≠ '=' ∧ c ≠ '?' ∧ c ≠ '#' := by
  induction q using encodeUnits.induct with
  | case1 =>
    intro out h c hc
    rw [encodeUnits.eq_def] at h
    simp at h
    subst h
    simp at hc
  | case2 u rest hu ih =>
    intro out h c hc
    rw [encodeUnits.eq_def] at h
    simp only [hu, if_true, Option.map_eq_some'] at h
    obtain ⟨out2, h2, rfl⟩ := h
    rcases List.mem_cons.mp hc with h3 | h3
    · subst h3; exact uriUnreserved_safe u.val hu
    · exact ih out2 h2 c h3
  | case3 u hu hl =>
    intro out h
    rw [encodeUnits.eq_def] at h
    simp [hu, hl] at h
  | case4 u hu hl v rest hv ih =>
    intro out h c hc
    rw [encodeUnits.eq_def] at h
    simp only [hu, hl, hv, if_true, Bool.false_eq_true, if_false, Option.map_eq_some'] at h
    obtain ⟨out2, h2, rfl⟩ := h
    rcases List.mem_append.mp hc with h3 | h3
    · refine pctCodePoint_safe _ ?_ c h3
      have hu2 : u.val < 0xDC00 := by
        simp only [isLeadSurrogate, Bool.and_eq_true, decide_eq_true_eq] at hl
        exact hl.2
      have hv2 : v.val < 0xE000 := by
        simp only [isTrailSurrogate, Bool.and_eq_true, decide_eq_true_eq] at hv
        exact hv.2
      omega
    · exact ih out2 h2 c h3
  | case5 u hu hl v rest hv =>
    intro out h
    rw [encodeUnits.eq_def] at h
    simp [hu, hl, hv] at h
  | case6 u rest hu hl ht =>
    intro out h
    rw [encodeUnits.eq_def] at h
    simp [hu, hl, ht] at h
  | case7 u rest hu hl ht ih =>
    intro out h c hc
    rw [encodeUnits.eq_def] at h
    simp only [hu, hl, ht, Bool.false_eq_true, if_false, Option.map_eq_some'] at h
    obtain ⟨out2, h2, rfl⟩ := h
    rcases List.mem_append.mp hc with h3 | h3
    · exact pctCodePoint_safe _ (by have := u.isLt; omega) c h3
    · exact ih out2 h2 c h3

/-- A character is a code point outside the surrogate range. -/
theorem char_valid (c : Char) : c.toNat < 0xD800 ∨ (0xDFFF < c.toNat ∧ c.toNat < 0x110000) := by
  have := c.valid
  simp [UInt32.isValidChar, Nat.isValidChar] at this
  simp [Char.toNat]
  omega

/-- The code units of a character add no unpaired surrogate. -/
theorem isWellFormed_utf16_append (c : Char) (rest : JSString) :
    isWellFormed (utf16 c ++ rest) = isWellFormed rest := by
  have hv := char_valid c
  unfold utf16
  split_ifs with h
  · rw [List.singleton_append, isWellFormed.eq_def]
    have h1 : isLeadSurrogate (Fin.ofNat c.toNat) = false := by
      simp only [isLeadSurrogate, Fin.ofNat, Bool.and_eq_false_iff, decide_eq_false_iff_not]
      omega
    have h2 : isTrailSurrogate (Fin.ofNat c.toNat) = false := by
      simp only [isTrailSurrogate, Fin.ofNat, Bool.and_eq_false_iff, decide_eq_false_iff_not]
      omega
    simp [h1, h2]
  · have h1 : isLeadSurrogate (Fin.ofNat (0xD800 + (c.toNat - 0x10000) / 0x400)) = true := by
      simp only [isLeadSurrogate, Fin.ofNat, Bool.and_eq_true, decide_eq_true_eq]
      omega
    have h2 : isTrailSurrogate (Fin.ofNat (0xDC00 + (c.toNat - 0x10000) % 0x400)) = true := by
      simp only [isTrailSurrogate, Fin.ofNat, Bool.and_eq_true, decide_eq_true_eq]
      omega
    rw [List.cons_append, List.cons_append, List.nil_append, isWellFormed.eq_def]
    simp [h1, h2]

/-- Every text is a well-formed JavaScript string. -/
theorem isWellFormed_toJS (s : String) : isWellFormed (toJS s) = true := by
  unfold toJS
  induction s.data with
  | nil => rfl
  | cons c cs ih => rw [List.flatMap_cons, isWellFormed_utf16_append]; exact ih

/-- A well-formed string has an encoding, free of `&`, `=`, `?`, `#`. -/
theorem encodeURIComponent_wellFormed (q : JSString) (h : isWellFormed q = true) :
    ∃ e, encodeURIComponent q = some e ∧
      ∀ c ∈ e.data, c ≠ '&' ∧ c ≠ '=' ∧ c ≠ '?' ∧ c ≠ '#' := by
  have hs : (encodeUnits q).isSome = true := by rw [encodeUnits_isSome, h]
  obtain ⟨out, hout⟩ := Option.isSome_iff_exists.mp hs
  exact ⟨⟨out⟩, by simp [encodeURIComponent, hout], encodeUnits_safe q out hout⟩

/-- On a string with an unpaired surrogate the built-in throws; such a string
is not empty. -/
theorem encodeURIComponent_illFormed (q : JSString) (h : isWellFormed q = false) :
    q ≠ [] ∧ encodeURIComponent q = none := by
  constructor
  · intro hq
    subst hq
    simp [isWellFormed] at h
  · have hs : (encodeUnits q).isSome = false := by rw [encodeUnits_isSome, h]
    simp [encodeURIComponent, Option.not_isSome_iff_eq_none.mp (by simpa using hs)]

/-- The encoder on sample texts: reserved ASCII, two-, three- and four-byte
code points, and the unreserved marks. -/
theorem encodeURIComponent_samples :
    encodeURIComponent (toJS "a b&c=d?e#f") = some "a%20b%26c%3Dd%3Fe%23f"
      ∧ encodeURIComponent (toJS "é€😀") = some "%C3%A9%E2%82%AC%F0%9F%98%80"
      ∧ encodeURIComponent (toJS "-_.!~*()") = some "-_.!~*()"
      ∧ encodeURIComponent [0xD83D, 0xDE00] = some "%F0%9F%98%80"
      ∧ encodeURIComponent [0xD83D, 0x61] = none
      ∧ encodeURIComponent [0x61, 0xDE00] = none := by
  decide

/-- C6 as stated fails on a name that is one unpaired surrogate: the name is
not empty, `encodeURIComponent` throws inside the `try`, and `fetchEvents`
requests no URL at all and reports a connection failure. -/
theorem fetchEvents_lone_surrogate :
    ([0xD800] : JSString) ≠ []
      ∧ (fetchEvents (API_URL none) initialState [0xD800] [] (.ok (.arr []))).2 = []
      ∧ (fetchEvents (API_URL none) initialState [0xD800] [] (.ok (.arr []))).1.error
        = connectError := by
  have h : encodeURIComponent [0xD800] = none := by decide
  simp [fetchEvents, fetchUrl, fetchParams, h]

/-- C6, amended: for all strings `nameQuery` and `dateQuery` without an unpaired
surrogate, `fetchEvents` requests one URL; its parameters are `name` exactly
when `nameQuery` is non-empty and `date` exactly when `dateQuery` is non-empty,
their values hold no separator, and the URL is the bare `/events` when both
are empty.  With a query `bad` that holds an unpaired surrogate, as name or as
date, no request is issued and the connection error is set.
Search("Spring", "") requests `/events?name=Spring`, Search("", "2024-05-01")
requests `/events?date=2024-05-01`, and `clearSearch` after filters requests
`/events`. -/
theorem fetchEvents_url (api : String) (s : State) (nameQuery dateQuery bad : JSString)
    (r : GetResult) (hname : isWellFormed nameQuery = true)
    (hdate : isWellFormed dateQuery = true) (hbad : isWellFormed bad = false) :
    (∃ en ed ps, encodeURIComponent nameQuery = some en
        ∧ encodeURIComponent dateQuery = some ed
        ∧ fetchParams nameQuery dateQuery = some ps
        ∧ ps.map paramKey
          = (if nameQuery = [] then [] else ["name"]) ++ (if dateQuery = [] then [] else ["date"])
        ∧ (fetchEvents api s nameQuery dateQuery r).2
          = [.get (api ++ "/events" ++
              (if nameQuery = [] then (if dateQuery = [] then "" else "?date=" ++ ed)
               else if dateQuery = [] then "?name=" ++ en
               else "?name=" ++ en ++ "&date=" ++ ed))]
        ∧ (∀ c ∈ en.data ++ ed.data, c ≠ '&' ∧ c ≠ '=' ∧ c ≠ '?' ∧ c ≠ '#'))
      ∧ fetchEvents api s bad dateQuery r
        = ({ s with loading := false, error := connectError }, [])
      ∧ fetchEvents api s nameQuery bad r
        = ({ s with loading := false, error := connectError }, [])
      ∧ (fetchEvents api s [] [] r).2 = [.get (api ++ "/events")]
      ∧ (handleSearch api { s with searchName := toJS "Spring", searchDate := [] } r).2
        = [.get (api ++ "/events?name=Spring")]
      ∧ (handleSearch api { s with searchName := [], searchDate := toJS "2024-05-01" } r).2
        = [.get (api ++ "/events?date=2024-05-01")]
      ∧ (handleNameChange api { s with searchName := toJS "Sprin", searchDate := [] }
          (toJS "Spring") r).2 = [.get (api ++ "/events?name=Spring")]
      ∧ (handleDateChange api { s with searchName := [], searchDate := [] }
          (toJS "2024-05-01") r).2 = [.get (api ++ "/events?date=2024-05-01")]
      ∧ (clearSearch api
          { s with searchName := toJS "Spring", searchDate := toJS "2024-05-01" } r).2
        = [.get (api ++ "/events")]
      ∧ (clearSearch api
          { s with searchName := toJS "Spring", searchDate := toJS "2024-05-01" } r).1.searchName
        = []
      ∧ (clearSearch api
          { s with searchName := toJS "Spring", searchDate := toJS "2024-05-01" } r).1.searchDate
        = [] := by
  obtain ⟨en, hen, hensafe⟩ := encodeURIComponent_wellFormed nameQuery hname
  obtain ⟨ed, hed, hedsafe⟩ := encodeURIComponent_wellFormed dateQuery hdate
  obtain ⟨hbne, hbnone⟩ := encodeURIComponent_illFormed bad hbad
  have hS : encodeURIComponent (toJS "Spring") = some "Spring" := by decide
  have hD : encodeURIComponent (toJS "2024-05-01") = some "2024-05-01" := by decide
  have hSne : toJS "Spring" ≠ [] := by decide
  have hDne : toJS "2024-05-01" ≠ [] := by decide
  have hSpring : fetchUrl api (toJS "Spring") [] = some (api ++ "/events?name=Spring") := by
    simp [fetchUrl, fetchParams, String.intercalate, String.intercalate.go,
      String.append_assoc, hS, hSne]
  have hDate : fetchUrl api [] (toJS "2024-05-01")
      = some (api ++ "/events?date=2024-05-01") := by
    simp [fetchUrl, fetchParams, String.intercalate, String.intercalate.go,
      String.append_assoc, hD, hDne]
  have hBare : fetchUrl api [] [] = some (api ++ "/events") := by
    simp [fetchUrl, fetchParams]
  refine ⟨⟨en, ed, (if nameQuery = [] then [] else ["name=" ++ en]) ++
      (if dateQuery = [] then [] else ["date=" ++ ed]), hen, hed, ?_, ?_, ?_, ?_⟩,
    ?_, ?_, ?_, ?_, ?_, ?_, ?_, ?_, ?_, ?_⟩
  · by_cases hn : nameQuery = [] <;> by_cases hd : dateQuery = [] <;>
      simp [fetchParams, hn, hd, hen, hed]
  · by_cases hn : nameQuery = [] <;> by_cases hd : dateQuery = [] <;>
      simp [hn, hd, paramKey, String.data_append]
  · have hurl : fetchUrl api nameQuery dateQuery = some (api ++ "/events" ++
          (if nameQuery = [] then (if dateQuery = [] then "" else "?date=" ++ ed)
           else if dateQuery = [] then "?name=" ++ en
           else "?name=" ++ en ++ "&date=" ++ ed)) := by
      by_cases hn : nameQuery = [] <;> by_cases hd : dateQuery = [] <;>
        simp [fetchUrl, fetchParams, hn, hd, hen, hed, String.intercalate,
          String.intercalate.go, String.append_assoc] <;>
        (apply String.ext; simp [String.data_append])
    simp [fetchEvents, hurl]
  · intro c hc
    rcases List.mem_append.mp hc with h | h
    · exact hensafe c h
    · exact hedsafe c h
  · simp [fetchEvents, fetchUrl, fetchParams, hbne, hbnone]
  · by_cases hn : nameQuery = [] <;>
      simp [fetchEvents, fetchUrl, fetchParams, hbne, hbnone, hn, hen]
  · simp [fetchEvents, hBare]
  · simp [handleSearch, fetchEvents, hSpring, hSne]
  · simp [handleSearch, fetchEvents, hDate, hDne]
  · simp [handleNameChange, fetchEvents, hSpring]
  · simp [handleDateChange, fetchEvents, hDate]
  · simp [clearSearch, fetchEvents, hBare]
  · cases r with
    | ok data => cases h : pickEvents data <;> simp [clearSearch, fetchEvents, hBare, h]
    | fail => simp [clearSearch, fetchEvents, hBare]
  · cases r with
    | ok data => cases h : pickEvents data <;> simp [clearSearch, fetchEvents, hBare, h]
    | fail => simp [clearSearch, fetchEvents, hBare]

/-- Instance of the amended C6: the name Spring and the date 2024-05-01, and
the unpaired surrogate 0xD800 as the name that throws. -/
theorem fetchEvents_url_witness :
    isWellFormed (toJS "Spring") = true ∧ isWellFormed (toJS "2024-05-01") = true
      ∧ isWellFormed [0xD800] = false
      ∧ fetchEvents "http://localhost:5000" initialState [0xD800] (toJS "2024-05-01") .fail
        = ({ initialState with loading := false, error := connectError }, []) :=
  ⟨by decide, by decide, by decide,
    (fetchEvents_url "http://localhost:5000" initialState (toJS "Spring")
      (toJS "2024-05-01") [0xD800] .fail (by decide) (by decide) (by decide)).2.1⟩

end EventBoard

/-! ## Form visibility -/

namespace EventBoard

/-- C7 on the code: after the mount fetch shows one event, clicking Apply, then
Edit, then the Add Event button leaves all three forms visible, since
`startEditing` does not close the apply form and the Add Event button closes
nothing. -/
theorem forms_overlap :
    (run (API_URL none) initialState
        [.mount (.ok (.arr [⟨1, "Hack Day", "2024-05-01"⟩])), .startApplying 1,
         .startEditing ⟨1, "Hack Day", "2024-05-01"⟩, .toggleAdd]).showAddForm = true
      ∧ (run (API_URL none) initialState
        [.mount (.ok (.arr [⟨1, "Hack Day", "2024-05-01"⟩])), .startApplying 1,
         .startEditing ⟨1, "Hack Day", "2024-05-01"⟩, .toggleAdd]).editingEvent
          = some ⟨1, "Hack Day", "2024-05-01"⟩
      ∧ (run (API_URL none) initialState
        [.mount (.ok (.arr [⟨1, "Hack Day", "2024-05-01"⟩])), .startApplying 1,
         .startEditing ⟨1, "Hack Day", "2024-05-01"⟩, .toggleAdd]).showApplyForm = true
      ∧ visibleForms (run (API_URL none) initialState
        [.mount (.ok (.arr [⟨1, "Hack Day", "2024-05-01"⟩])), .startApplying 1,
         .startEditing ⟨1, "Hack Day", "2024-05-01"⟩, .toggleAdd]) = 3
      ∧ visibleForms (run (API_URL none) initialState
        [.mount (.ok (.arr [⟨1, "Hack Day", "2024-05-01"⟩])), .startApplying 1,
         .toggleAdd]) = 2
      ∧ visibleForms (run (API_URL none) initialState
        [.mount (.ok (.arr [⟨1, "Hack Day", "2024-05-01"⟩])),
         .startEditing ⟨1, "Hack Day", "2024-05-01"⟩, .toggleAdd]) = 2 := by
  simp [run, step, fetchEvents, fetchUrl, fetchParams, pickEvents, startApplying, startEditing, toggleAddForm,
    visibleForms, initialState]

/-- What the code does keep: `startApplying` leaves the apply form as the only
visible one, and `startEditing` closes the add form. -/
theorem startApplying_exclusive (s : State) (eventId : Int) (event : Event) :
    visibleForms (startApplying s eventId) = 1 ∧ (startEditing s event).showAddForm = false := by
  simp [startApplying, startEditing, visibleForms]

/-- C9 on the code, add form: after opening it and typing a name, the
Add Event / Cancel button hides the form and keeps the typed draft in
`newEvent`, where `cancelApplying` and a successful `handleAddEvent` empty
their buffer. -/
theorem toggleAddForm_keeps_draft :
    (run (API_URL none) initialState [.toggleAdd, .type .newName "Fair"]).showAddForm = true
      ∧ (step (API_URL none)
          (run (API_URL none) initialState [.toggleAdd, .type .newName "Fair"])
          .toggleAdd).newEvent = ⟨"Fair", ""⟩
      ∧ (step (API_URL none)
          (run (API_URL none) initialState [.toggleAdd, .type .newName "Fair"])
          .toggleAdd).newEvent ≠ ⟨"", ""⟩ := by
  simp [run, step, toggleAddForm, changeField, initialState]

/-- Where the add form is open, the Add Event / Cancel button hides it and
leaves `events` unchanged. -/
theorem toggleAddForm_hides (s : State) (h : s.showAddForm = true) :
    (toggleAddForm s).showAddForm = false ∧ (toggleAddForm s).events = s.events := by
  simp [toggleAddForm, h]

/-- The other two cancel actions: `cancelEditing` resets `editingEvent` to null,
`cancelApplying` hides the apply form and empties `applicationData`; neither
touches `events`. -/
theorem cancelEditing_cancelApplying_reset (s : State) :
    ((cancelEditing s).editingEvent = none ∧ (cancelEditing s).events = s.events)
      ∧ ((cancelApplying s).showApplyForm = false
        ∧ (cancelApplying s).applicationData = ⟨"", "", ""⟩
        ∧ (cancelApplying s).events = s.events) := by
  simp [cancelEditing, cancelApplying]

/-! ## Non-empty name and date -/

/-- C8 as stated fails on the first fetch: a successful `GET /events` whose
body holds an event with an empty name puts that event into `events`. -/
theorem fetch_accepts_unfilled :
    ∃ e ∈ (run (API_URL none) initialState
        [.mount (.ok (.arr [⟨1, "", "2024-05-01"⟩]))]).events, ¬ e.filled := by
  refine ⟨⟨1, "", "2024-05-01"⟩, ?_, ?_⟩
  · simp [run, step, fetchEvents, fetchUrl, fetchParams, pickEvents, initialState]
  · simp [Event.filled]

/-- A fetch that delivers filled events keeps the events filled. -/
theorem fetchEvents_filled (api : String) (s : State) (nameQuery dateQuery : JSString)
    (r : GetResult) (hr : r.filled) (h : ∀ e ∈ s.events, e.filled) :
    ∀ e ∈ (fetchEvents api s nameQuery dateQuery r).1.events, e.filled := by
  unfold fetchEvents
  cases fetchUrl api nameQuery dateQuery with
  | none => simpa using h
  | some url =>
    cases r with
    | fail => simpa using h
    | ok data =>
      cases hp : pickEvents data with
      | none => simpa [hp] using h
      | some xs => simpa [hp] using hr xs hp

/-- The validation of `handleAddEvent` keeps the events filled. -/
theorem handleAddEvent_filled (api : String) (s : State) (now : Int) (r : CallResult)
    (h : ∀ e ∈ s.events, e.filled) :
    ∀ e ∈ (handleAddEvent api s now r).1.events, e.filled := by
  unfold handleAddEvent
  split_ifs with hv
  · exact h
  · cases r with
    | fail resp => exact h
    | ok =>
      intro e he
      rcases List.mem_append.mp he with h1 | h1
      · exact h e h1
      · have : e = ⟨now, s.newEvent.name, s.newEvent.date⟩ := by simpa using h1
        subst this
        exact ⟨fun hn => hv (Or.inl hn), fun hd => hv (Or.inr hd)⟩

/-- The validation of `handleEditEvent` keeps the events filled. -/
theorem handleEditEvent_filled (api : String) (s : State) (r : CallResult)
    (h : ∀ e ∈ s.events, e.filled) :
    ∀ e ∈ (handleEditEvent api s r).1.events, e.filled := by
  unfold handleEditEvent
  cases hed : s.editingEvent with
  | none => exact h
  | some ev =>
    simp only
    split_ifs with hv
    · exact h
    · cases r with
      | fail resp =>
        cases resp with
        | none => exact h
        | some resp => simp only; split <;> exact h
      | ok =>
        intro e he
        obtain ⟨x, hx, hxe⟩ := List.mem_map.mp he
        by_cases hid : x.id = ev.id
        · rw [if_pos hid] at hxe
          subst hxe
          exact ⟨fun hn => hv (Or.inl hn), fun hd => hv (Or.inr hd)⟩
        · rw [if_neg hid] at hxe
          subst hxe
          exact h x hx

/-- Deleting keeps the events filled. -/
theorem handleDeleteEvent_filled (api : String) (s : State) (eventId : Int) (confirmed : Bool)
    (r : CallResult) (h : ∀ e ∈ s.events, e.filled) :
    ∀ e ∈ (handleDeleteEvent api s eventId confirmed r).1.events, e.filled := by
  unfold handleDeleteEvent
  cases confirmed with
  | false => exact h
  | true =>
    cases r with
    | fail resp =>
      cases resp with
      | none => exact h
      | some resp => simp only [Bool.not_true, Bool.false_eq_true, if_false]; split <;> exact h
    | ok => exact fun e he => h e (List.mem_filter.mp he).1

/-- Every action whose fetch delivers filled events keeps the events filled. -/
theorem step_filled (api : String) (s : State) (a : Action) (ha : a.fetchesFilled)
    (h : ∀ e ∈ s.events, e.filled) : ∀ e ∈ (step api s a).events, e.filled := by
  cases a with
  | mount r => exact fetchEvents_filled api s [] [] r ha h
  | toggleAdd => exact h
  | type field value => cases field <;> exact h
  | submitAdd now r => exact handleAddEvent_filled api s now r h
  | startEditing event => exact h
  | cancelEditing => exact h
  | submitEdit r => exact handleEditEvent_filled api s r h
  | delete eventId confirmed r => exact handleDeleteEvent_filled api s eventId confirmed r h
  | startApplying eventId => exact h
  | cancelApplying => exact h
  | submitApply r =>
    simp only [step, handleApply]
    split_ifs
    · exact h
    · cases r <;> exact h
  | search r =>
    simp only [step, handleSearch]
    split_ifs
    · exact fetchEvents_filled api s _ _ r ha h
    · exact fetchEvents_filled api s _ _ r ha h
  | nameChange value r => exact fetchEvents_filled api _ _ _ r ha h
  | dateChange value r => exact fetchEvents_filled api _ _ _ r ha h
  | clearSearch r => exact fetchEvents_filled api _ _ _ r ha h

/-- The invariant along a run that starts in any state with filled events. -/
theorem run_filled (api : String) (actions : List Action) :
    ∀ s : State, (∀ a ∈ actions, a.fetchesFilled) → (∀ e ∈ s.events, e.filled) →
      ∀ e ∈ (run api s actions).events, e.filled := by
  induction actions with
  | nil => intro s _ h; exact h
  | cons a rest ih =>
    intro s ha h
    exact ih (step api s a) (fun b hb => ha b (List.mem_cons_of_mem a hb))
      (step_filled api s a (ha a (List.mem_cons_self a rest)) h)

/-- C8, amended: in every state reachable from the initial state by any
sequence of user actions in which every successful fetch delivers only events
with non-empty name and date, every element of `events` has a non-empty name
and a non-empty date. -/
theorem events_filled (api : String) (actions : List Action)
    (h : ∀ a ∈ actions, a.fetchesFilled) :
    ∀ e ∈ (run api initialState actions).events, e.filled :=
  run_filled api actions initialState h (by simp [initialState])

/-- Instance of the amended C8: fetch of one event, a create, an edit of the
fetched event and a delete. -/
theorem events_filled_witness :
    (∀ a ∈ [Action.mount (.ok (.arr [⟨1, "Hack Day", "2024-05-01"⟩])), .toggleAdd,
          .type .newName "Fair", .type .newDate "2024-06-01", .submitAdd 1717200000000 .ok,
          .startEditing ⟨1, "Hack Day", "2024-05-01"⟩, .type .editName "Hack Night",
          .submitEdit .ok, .delete 1717200000000 true .ok], a.fetchesFilled)
      ∧ ∀ e ∈ (run "http://localhost:5000" initialState
          [.mount (.ok (.arr [⟨1, "Hack Day", "2024-05-01"⟩])), .toggleAdd,
           .type .newName "Fair", .type .newDate "2024-06-01", .submitAdd 1717200000000 .ok,
           .startEditing ⟨1, "Hack Day", "2024-05-01"⟩, .type .editName "Hack Night",
           .submitEdit .ok, .delete 1717200000000 true .ok]).events, e.filled :=
  have hact : ∀ a ∈ [Action.mount (.ok (.arr [⟨1, "Hack Day", "2024-05-01"⟩])), .toggleAdd,
          .type .newName "Fair", .type .newDate "2024-06-01", .submitAdd 1717200000000 .ok,
          .startEditing ⟨1, "Hack Day", "2024-05-01"⟩, .type .editName "Hack Night",
          .submitEdit .ok, .delete 1717200000000 true .ok], a.fetchesFilled := by
    simp [Action.fetchesFilled, GetResult.filled, pickEvents, Event.filled]
  ⟨hact, events_filled "http://localhost:5000" _ hact⟩

end EventBoard
